import Mathlib

/-!
# Observation Masking Engine — verification development

Shallow embedding of `packages/core/src/services/observationMaskingService.ts`
(class `ObservationMaskingService`) and proofs about it.

Modelling conventions:
* JavaScript strings are modelled as Lean `String`; `s.length`, `slice`,
  `split('\n')` are modelled on code points (they agree with UTF-16 code
  units for all basic-multilingual-plane text).
* The external token estimator `estimateTokenCountSync([part])` (in
  `utils/tokenCalculation.ts`, outside the embedded service) is an abstract
  parameter `est : Part → Nat`, per its interface contract (deterministic,
  applied to the single-part slice).
* `Date.now().toString()` and `Math.random().toString(36).substring(7)` are
  oracles `nowStr, rand : Nat → String` indexed by the number of loop bodies
  executed so far.
* File-system effects (`fsPromises.mkdir`, `fsPromises.writeFile`) are
  recorded in an explicit `SideEffects` value; their possible failures are
  oracles `mkdirErr : Option ε` and `writeErr : Nat → Option ε` (indexed by
  write count), and the whole computation returns `Except ε _`, mirroring a
  rejected promise propagating to the caller.
* `path.join a b` is modelled as `a ++ "/" ++ b`.
* The telemetry call `logObservationMasking` is recorded as an event in
  `SideEffects`; `debugLogger.log` calls are pure logging and not modelled.
-/

namespace ObsMask

/-- A JavaScript value stored in a response record. The service only ever
distinguishes string values (`typeof v === 'string'`) from everything else;
a non-string value is kept abstract together with the result of its
`toString()`. -/
inductive JsVal where
  | str (s : String)
  | other (asString : String)
deriving DecidableEq, Repr

/-- A JavaScript object, as an association list in property-insertion order
(first match wins on lookup; real JS objects have no duplicate keys). -/
abbrev JsObj := List (String × JsVal)

/-- `part.functionResponse.response`: either a bare string or an object. -/
inductive RespVal where
  | str (s : String)
  | obj (fields : JsObj)
deriving DecidableEq, Repr

/-- `FunctionResponse` from `@google/genai`: tool name, optional id, and the
response payload.  `id` stands for the fields other than `response` that the
spread `{...part.functionResponse}` preserves. -/
structure FunctionResponse where
  name : Option String := none
  id : Option String := none
  response : Option RespVal := none
deriving DecidableEq, Repr

/-- A `Part`; the service only acts on parts with `functionResponse`.  The
`text` field stands for the fields outside `functionResponse` that the
spread `{...part}` preserves. -/
structure Part where
  functionResponse : Option FunctionResponse := none
  text : Option String := none
deriving DecidableEq, Repr

instance : Inhabited Part := ⟨{}⟩

/-- A `Content` (one conversation turn): a role and `parts`. -/
structure Content where
  role : Option String := none
  parts : Option (List Part) := none
deriving DecidableEq, Repr

instance : Inhabited Content := ⟨{}⟩

def TOOL_PROTECTION_THRESHOLD : Nat := 50000
def HYSTERESIS_THRESHOLD : Nat := 30000
def SMART_TRUNCATION_TOKENS : Nat := 5000
def OBSERVATION_DIR : String := "observations"

/-- `MaskingResult` returned by `mask`.  `tokensSaved` accumulates
`tokens - newTaskTokens` which can in principle be negative, hence `Int`. -/
structure MaskingResult where
  newHistory : List Content
  maskedCount : Nat
  tokensSaved : Int
deriving DecidableEq, Repr

/-- The telemetry event `ObservationMaskingEvent`. -/
structure ObservationMaskingEvent where
  tokens_before : Nat
  tokens_after : Int
  masked_count : Nat
  total_prunable_tokens : Nat
deriving DecidableEq, Repr

/-- Side effects performed by one invocation of `mask`. -/
structure SideEffects where
  dirsCreated : List String
  fileWrites : List (String × String)
  telemetry : List ObservationMaskingEvent
deriving DecidableEq, Repr

def noEffects : SideEffects := ⟨[], [], []⟩

/-- Property lookup on a JS object (`obj[key]`, `'key' in obj`). -/
def jsGet : JsObj → String → Option JsVal
  | [], _ => none
  | (k, v) :: rest, key => if k = key then some v else jsGet rest key

/-- Property assignment on (a copy of) a JS object: an existing key keeps its
position, a new key is appended in insertion order. -/
def setKey : JsObj → String → JsVal → JsObj
  | [], key, v => [(key, v)]
  | (k, w) :: rest, key, v =>
    if k = key then (key, v) :: rest else (k, w) :: setKey rest key v

/-- The value at a key when it is a string (`'k' in r && typeof r['k'] === 'string'`). -/
def strVal : Option JsVal → Option String
  | some (.str s) => some s
  | _ => none

/-- `ObservationMaskingService.getObservationContent` (lines 200-217).
Note `if (!response) return null` also fires on the empty string (falsy). -/
def getObservationContent (part : Part) : Option String :=
  match part.functionResponse with
  | none => none
  | some fr =>
    match fr.response with
    | none => none
    | some (.str s) => if s = "" then none else some s
    | some (.obj l) =>
      match strVal (jsGet l "output") with
      | some s => some s
      | none =>
        match strVal (jsGet l "result") with
        | some s => some s
        | none =>
          match strVal (jsGet l "stdout") with
          | some s => some s
          | none => strVal (jsGet l "content")

def maskedMarker : String := "[Observation Masked]"

/-- `ObservationMaskingService.isAlreadyMasked` (lines 219-221):
`content.includes('[Observation Masked]')`, i.e. substring containment. -/
def isAlreadyMasked (content : String) : Bool :=
  decide (maskedMarker.data <:+: content.data)

/-- The guard of the scan body (lines 62-67): the part must be a tool
response whose extracted observation text is truthy (non-empty) and not
already masked; returns the extracted text. -/
def qualifies (part : Part) : Option String :=
  match part.functionResponse with
  | none => none
  | some _ =>
    match getObservationContent part with
    | none => none
    | some c => if c = "" then none else if isAlreadyMasked c then none else some c

/-- An entry of `prunableParts` (lines 46-51). -/
structure PrunableRecord where
  contentIndex : Nat
  partIndex : Nat
  tokens : Nat
  content : String
deriving DecidableEq, Repr

/-- The scanner's mutable state (lines 42-51). -/
structure ScanState where
  cumulativeToolTokens : Nat
  protectionBoundaryReached : Bool
  totalPrunableTokens : Nat
  prunableParts : List PrunableRecord
deriving DecidableEq, Repr

def initScanState : ScanState := ⟨0, false, 0, []⟩

/-- The classification step of the scan body (lines 71-92), abstracted over
an already-built record (tokens and content precomputed). -/
def scanRec (r : PrunableRecord) (st : ScanState) : ScanState :=
  if !st.protectionBoundaryReached then
    let cum := st.cumulativeToolTokens + r.tokens
    if cum > TOOL_PROTECTION_THRESHOLD then
      { st with
        cumulativeToolTokens := cum
        protectionBoundaryReached := true
        totalPrunableTokens := st.totalPrunableTokens + r.tokens
        prunableParts := st.prunableParts ++ [r] }
    else
      { st with cumulativeToolTokens := cum }
  else
    { st with
      totalPrunableTokens := st.totalPrunableTokens + r.tokens
      prunableParts := st.prunableParts ++ [r] }

/-- One iteration of the inner scan loop (lines 58-93): guards, then
`partTokens = estimateTokenCountSync([part])` and classification. -/
def scanPart (est : Part → Nat) (i j : Nat) (part : Part) (st : ScanState) : ScanState :=
  match qualifies part with
  | none => st
  | some c => scanRec ⟨i, j, est part, c⟩ st

/-- The inner loop of the scan: parts of one turn, last to first
(`for (let j = parts.length - 1; j >= 0; j--)`, with `parts = content.parts || []`). -/
def scanContent (est : Part → Nat) (i : Nat) (content : Content) (st : ScanState) : ScanState :=
  ((content.parts.getD []).enum.reverse).foldl (fun st jp => scanPart est i jp.1 jp.2 st) st

/-- Step 1 of `mask` (lines 54-94): the backward scan over the history. -/
def scanHistory (est : Part → Nat) (history : List Content) : ScanState :=
  (history.enum.reverse).foldl (fun st ic => scanContent est ic.1 ic.2 st) initScanState

/-- The scan-order list of qualifying records: every tool-observation part
with truthy, not-already-masked text, turns last to first and parts last to
first, paired with its indices, estimate and text.  The scanner's state is a
fold over exactly this list (see `scanHistory_eq_scanRecs`). -/
def partRecords (est : Part → Nat) (i : Nat) (content : Content) : List PrunableRecord :=
  ((content.parts.getD []).enum.reverse).filterMap
    (fun jp => (qualifies jp.2).map (fun c => ⟨i, jp.1, est jp.2, c⟩))

def qualifyingRecords (est : Part → Nat) (history : List Content) : List PrunableRecord :=
  (history.enum.reverse).flatMap (fun ic => partRecords est ic.1 ic.2)

/-- Fold of `scanRec` over a record list. -/
def scanRecs (recs : List PrunableRecord) (st : ScanState) : ScanState :=
  recs.foldl (fun st r => scanRec r st) st

/-- Decimal digit grouping of `Number.prototype.toLocaleString()` in the
default (en-US style) locale: thousands separated by commas.  Input is the
digit list least-significant first; `k` counts digits since the last comma. -/
def groupRev : List Char → Nat → List Char
  | [], _ => []
  | c :: rest, k =>
    if k = 3 then ',' :: c :: groupRev rest 1 else c :: groupRev rest (k + 1)

def natToLocaleString (n : Nat) : String :=
  ⟨(groupRev (toString n).data.reverse 0).reverse⟩

/-- `(bytes / 1024 / 1024).toFixed(2)`: the file size in MiB with two
decimals.  Modelled by exact rational rounding to the nearest hundredth,
ties upward (ECMA-262 `toFixed` picks the larger candidate); this agrees
with the IEEE-double computation whenever the double rounding error does not
straddle a half-hundredth boundary. -/
def toFixed2MiB (bytes : Nat) : String :=
  let scaled := (bytes * 100 + 524288) / 1048576
  let whole := scaled / 100
  let fr := scaled % 100
  toString whole ++ "." ++ (if fr < 10 then "0" ++ toString fr else toString fr)

/-- `content.slice(-n)` for `n > 0`: the last `n` characters (the whole
string when it is shorter than `n`). -/
def jsSliceLast (s : String) (n : Nat) : String :=
  s.drop (s.length - n)

/-- The one-line truncation banner (line 250 of the template). -/
def truncationBanner (totalLines : Nat) (fileSizeMB : String) (totalTokens : Nat) : String :=
  "... [TRUNCATED " ++ natToLocaleString totalLines ++ " LINES | " ++ fileSizeMB
    ++ "MB | ~" ++ natToLocaleString totalTokens ++ " TOKENS] ..."

/-- The trailing `<observation_masked_guidance>` block (lines 253-268). -/
def maskGuidance (toolName filePath : String) (totalLines : Nat) (fileSizeMB : String)
    (totalTokens : Nat) : String :=
  "<observation_masked_guidance tool_name=\"" ++ toolName ++ "\">\n  <summary>\n    Data from tool \""
    ++ toolName ++ "\" was offloaded to save context space.\n  </summary>\n  <details>\n    <file_path>"
    ++ filePath ++ "</file_path>\n    <line_count>" ++ natToLocaleString totalLines
    ++ "</line_count>\n    <file_size>" ++ fileSizeMB ++ "MB</file_size>\n    <estimated_total_tokens>"
    ++ natToLocaleString totalTokens
    ++ "</estimated_total_tokens>\n  </details>\n  <instructions>\n    The full output is available at the path above. \n    You can inspect it using tools like 'search_file_content' or 'read_file'.\n    Note: Reading the full file will use approximately "
    ++ natToLocaleString totalTokens ++ " tokens.\n  </instructions>\n</observation_masked_guidance>"

/-- `ObservationMaskingService.formatMaskedSnippet` (lines 223-269).
The size condition `content.length <= charLimit * 2.5` is written
`content.length * 2 ≤ charLimit * 5` to stay in `Nat` (exact, as
`charLimit * 2.5 = 50000` is an integer). -/
def formatMaskedSnippet (content filePath toolName : String) (totalTokens : Nat) : String :=
  let totalLines := (content.splitOn "\n").length
  let fileSizeMB := toFixed2MiB content.utf8ByteSize
  let charLimit := SMART_TRUNCATION_TOKENS * 4
  if content.length * 2 ≤ charLimit * 5 then
    content
  else
    "[Observation Masked]\n" ++ content.take charLimit ++ "\n"
      ++ truncationBanner totalLines fileSizeMB totalTokens ++ "\n"
      ++ jsSliceLast content charLimit ++ "\n\n"
      ++ maskGuidance toolName filePath totalLines fileSizeMB totalTokens

/-- `response['callId']?.toString() || Date.now().toString()` applied to
`(part.functionResponse.response as Record<string, unknown>) || {}`
(lines 123-125).  A bare-string or absent payload has no `callId` property;
`||` also falls back when `toString()` yields the empty string. -/
def callIdOf (resp : Option RespVal) (fallback : String) : String :=
  match resp with
  | some (.obj l) =>
    match jsGet l "callId" with
    | some (.str s) => if s = "" then fallback else s
    | some (.other a) => if a = "" then fallback else a
    | none => fallback
  | _ => fallback

/-- The offload file path (lines 126-129):
`path.join(observationDir, toolName + "_" + callId + "_" + suffix + ".txt")`;
an undefined tool name renders as the string "undefined" in the template. -/
def offloadFilePath (observationDir nowS randS : String) (fr : FunctionResponse) : String :=
  observationDir ++ "/" ++ (fr.name.getD "undefined") ++ "_" ++ callIdOf fr.response nowS
    ++ "_" ++ randS ++ ".txt"

/-- Building the replacement response payload (lines 142-162).
`originalResponse = response || {}`, so an absent or empty-string payload
becomes the empty object; a bare non-empty string payload is replaced
wholesale; otherwise the first key present among `output`, `result`,
`stdout`, `content` (presence, not string-ness) receives the snippet, with
an `output` key appended when none is present. -/
def rewriteResponse (resp : Option RespVal) (snippet : String) : RespVal :=
  let originalResponse : RespVal :=
    match resp with
    | some (.str s) => if s = "" then .obj [] else .str s
    | some (.obj l) => .obj l
    | none => .obj []
  match originalResponse with
  | .str _ => .str snippet
  | .obj l =>
    if (jsGet l "output").isSome then .obj (setKey l "output" (.str snippet))
    else if (jsGet l "result").isSome then .obj (setKey l "result" (.str snippet))
    else if (jsGet l "stdout").isSome then .obj (setKey l "stdout" (.str snippet))
    else if (jsGet l "content").isSome then .obj (setKey l "content" (.str snippet))
    else .obj (setKey l "output" (.str snippet))

/-- The rebuilt part (lines 164-170):
`{...part, functionResponse: {...part.functionResponse, response: newResponse}}`. -/
def rewritePart (part : Part) (fr : FunctionResponse) (snippet : String) : Part :=
  { part with functionResponse := some { fr with response := some (rewriteResponse fr.response snippet) } }

/-- The part of the working history at turn `ci`, part `pi`
(`newHistory[contentIndex].parts![partIndex]`), totalised with defaults for
indices the scanner never produces. -/
def partAtD (h : List Content) (ci pi : Nat) : Part :=
  ((h.getD ci default).parts.getD []).getD pi default

/-- `history[ci].parts[pi]` as an `Option`, for stating scanner soundness. -/
def historyPartAt (h : List Content) (ci pi : Nat) : Option Part :=
  match h[ci]? with
  | none => none
  | some c => (c.parts.getD [])[pi]?

/-- Mutable state of the masking loop (lines 106-107 plus recorded writes). -/
structure LoopState where
  newHistory : List Content
  actualTokensSaved : Int
  fileWrites : List (String × String)
deriving DecidableEq, Repr

/-- One executed body of the masking loop (lines 114-175) for record `r`,
with `k` the number of bodies executed before it: write the full original
text to the offload file, compute the snippet, rebuild the affected part and
turn in the working copy, and account the token delta. -/
def maskStep (est : Part → Nat) (observationDir : String) (nowStr rand : Nat → String)
    (k : Nat) (r : PrunableRecord) (st : LoopState) : LoopState :=
  let contentRecord := st.newHistory.getD r.contentIndex default
  let parts := contentRecord.parts.getD []
  let part := parts.getD r.partIndex default
  match part.functionResponse with
  | none => st
  | some fr =>
    let filePath := offloadFilePath observationDir (nowStr k) (rand k) fr
    let maskedSnippet := formatMaskedSnippet r.content filePath (fr.name.getD "unknown_tool") r.tokens
    let newPart := rewritePart part fr maskedSnippet
    let newParts := parts.set r.partIndex newPart
    { newHistory := st.newHistory.set r.contentIndex { contentRecord with parts := some newParts }
      actualTokensSaved := st.actualTokensSaved + ((r.tokens : Int) - (est newPart : Int))
      fileWrites := st.fileWrites ++ [(filePath, r.content)] }

/-- Whether the loop body for `r` executes (the guard
`if (!part.functionResponse) continue;`, line 119). -/
def stepExecutes (st : LoopState) (r : PrunableRecord) : Bool :=
  (partAtD st.newHistory r.contentIndex r.partIndex).functionResponse.isSome

/-- The masking loop (lines 114-175) with a fallible file writer: the `k`-th
attempted write fails with `writeErr k` when that is `some e`, aborting the
invocation as a rejected promise would. -/
def maskLoopE {ε : Type} (est : Part → Nat) (observationDir : String)
    (nowStr rand : Nat → String) (writeErr : Nat → Option ε) :
    List PrunableRecord → Nat → LoopState → Except ε LoopState
  | [], _, st => .ok st
  | r :: rs, k, st =>
    if stepExecutes st r then
      match writeErr k with
      | some e => .error e
      | none =>
        maskLoopE est observationDir nowStr rand writeErr rs (k + 1)
          (maskStep est observationDir nowStr rand k r st)
    else
      maskLoopE est observationDir nowStr rand writeErr rs k st

/-- `ObservationMaskingService.mask` (lines 37-198) with explicit effect
accounting and fallible I/O.  `historyDir` is
`config.storage.getHistoryDir()`. -/
def maskCore {ε : Type} (est : Part → Nat) (historyDir : String)
    (nowStr rand : Nat → String) (mkdirErr : Option ε) (writeErr : Nat → Option ε)
    (history : List Content) : Except ε (MaskingResult × SideEffects) :=
  if history.length = 0 then
    .ok (⟨history, 0, 0⟩, noEffects)
  else
    let st := scanHistory est history
    if st.totalPrunableTokens < HYSTERESIS_THRESHOLD then
      .ok (⟨history, 0, 0⟩, noEffects)
    else
      let observationDir := historyDir ++ "/" ++ OBSERVATION_DIR
      match mkdirErr with
      | some e => .error e
      | none =>
        match maskLoopE est observationDir nowStr rand writeErr st.prunableParts 0
            ⟨history, 0, []⟩ with
        | .error e => .error e
        | .ok ls =>
          .ok (⟨ls.newHistory, st.prunableParts.length, ls.actualTokensSaved⟩,
            ⟨[observationDir], ls.fileWrites,
              [⟨st.totalPrunableTokens,
                (st.totalPrunableTokens : Int) - ls.actualTokensSaved,
                st.prunableParts.length, st.totalPrunableTokens⟩]⟩)

/-- `mask` on the happy path (no I/O failure). -/
def mask (est : Part → Nat) (historyDir : String) (nowStr rand : Nat → String)
    (history : List Content) : Except Unit (MaskingResult × SideEffects) :=
  maskCore est historyDir nowStr rand none (fun _ => none) history

/-- The prunable region as described by the specification: walk the
scan-order qualifying records keeping a seen-token counter; the first record
whose addition makes the counter strictly exceed the protection threshold,
and every record after it, is prunable; nothing before it is. -/
def boundaryPrunable (seen : Nat) : List PrunableRecord → List PrunableRecord
  | [] => []
  | r :: rs =>
    if seen + r.tokens > TOOL_PROTECTION_THRESHOLD then r :: rs
    else boundaryPrunable (seen + r.tokens) rs

/-! ## Scanner decomposition lemmas -/

lemma scanRecs_nil (st : ScanState) : scanRecs [] st = st := rfl

lemma scanRecs_cons (r : PrunableRecord) (rs : List PrunableRecord) (st : ScanState) :
    scanRecs (r :: rs) st = scanRecs rs (scanRec r st) := rfl

lemma scanRecs_append (a b : List PrunableRecord) (st : ScanState) :
    scanRecs (a ++ b) st = scanRecs b (scanRecs a st) := by
  simp [scanRecs, List.foldl_append]

lemma foldl_scanPart (est : Part → Nat) (i : Nat) (l : List (Nat × Part)) (st : ScanState) :
    l.foldl (fun st jp => scanPart est i jp.1 jp.2 st) st
      = scanRecs (l.filterMap (fun jp => (qualifies jp.2).map
          (fun c => ⟨i, jp.1, est jp.2, c⟩))) st := by
  induction l generalizing st with
  | nil => rfl
  | cons jp rest ih =>
    cases h : qualifies jp.2 with
    | none =>
      simp only [List.foldl_cons, List.filterMap_cons, h, Option.map_none']
      rw [show scanPart est i jp.1 jp.2 st = st by simp [scanPart, h]]
      exact ih st
    | some c =>
      simp only [List.foldl_cons, List.filterMap_cons, h, Option.map_some']
      rw [show scanPart est i jp.1 jp.2 st = scanRec ⟨i, jp.1, est jp.2, c⟩ st by
        simp [scanPart, h]]
      rw [scanRecs_cons]
      exact ih _

lemma scanContent_eq (est : Part → Nat) (i : Nat) (content : Content) (st : ScanState) :
    scanContent est i content st = scanRecs (partRecords est i content) st :=
  foldl_scanPart est i _ st

lemma foldl_scanContent (est : Part → Nat) (l : List (Nat × Content)) (st : ScanState) :
    l.foldl (fun st ic => scanContent est ic.1 ic.2 st) st
      = scanRecs (l.flatMap (fun ic => partRecords est ic.1 ic.2)) st := by
  induction l generalizing st with
  | nil => rfl
  | cons ic rest ih =>
    simp only [List.foldl_cons, List.flatMap_cons]
    rw [scanContent_eq, scanRecs_append]
    exact ih _

/-- Step 1 of `mask` is exactly a fold of the classification step over the
scan-order qualifying records. -/
lemma scanHistory_eq_scanRecs (est : Part → Nat) (history : List Content) :
    scanHistory est history = scanRecs (qualifyingRecords est history) initScanState :=
  foldl_scanContent est _ _

lemma scanRec_post (r : PrunableRecord) (st : ScanState)
    (h : st.protectionBoundaryReached = true) :
    scanRec r st = { st with
      totalPrunableTokens := st.totalPrunableTokens + r.tokens
      prunableParts := st.prunableParts ++ [r] } := by
  simp [scanRec, h]

lemma scanRecs_post (recs : List PrunableRecord) (st : ScanState)
    (h : st.protectionBoundaryReached = true) :
    scanRecs recs st = { st with
      totalPrunableTokens := st.totalPrunableTokens + (recs.map PrunableRecord.tokens).sum
      prunableParts := st.prunableParts ++ recs } := by
  induction recs generalizing st with
  | nil => simp [scanRecs_nil]
  | cons r rs ih =>
    rw [scanRecs_cons, scanRec_post r st h, ih _ (by simp [h])]
    simp [Nat.add_assoc]

/-- Pre-boundary characterisation: starting from a fresh state with seen
counter `c`, the scanner produces exactly the `boundaryPrunable` region and
its token sum. -/
lemma scanRecs_front (recs : List PrunableRecord) (c : Nat) :
    (scanRecs recs ⟨c, false, 0, []⟩).prunableParts = boundaryPrunable c recs ∧
    (scanRecs recs ⟨c, false, 0, []⟩).totalPrunableTokens
      = ((boundaryPrunable c recs).map PrunableRecord.tokens).sum := by
  induction recs generalizing c with
  | nil => simp [scanRecs_nil, boundaryPrunable]
  | cons r rs ih =>
    by_cases h : c + r.tokens > TOOL_PROTECTION_THRESHOLD
    · have hst : scanRec r ⟨c, false, 0, []⟩ = ⟨c + r.tokens, true, r.tokens, [r]⟩ := by
        simp [scanRec, h]
      rw [scanRecs_cons, hst, scanRecs_post rs _ (by rfl)]
      simp [boundaryPrunable, h]
    · have hst : scanRec r ⟨c, false, 0, []⟩ = ⟨c + r.tokens, false, 0, []⟩ := by
        simp [scanRec, h]
      rw [scanRecs_cons, hst]
      simpa [boundaryPrunable, h] using ih (c + r.tokens)

lemma boundaryPrunable_suffix (recs : List PrunableRecord) (c : Nat) :
    boundaryPrunable c recs <:+ recs := by
  induction recs generalizing c with
  | nil => exact List.nil_suffix
  | cons r rs ih =>
    by_cases h : c + r.tokens > TOOL_PROTECTION_THRESHOLD
    · simp [boundaryPrunable, h]
    · simpa [boundaryPrunable, h] using (ih (c + r.tokens)).trans (List.suffix_cons r rs)

lemma boundaryPrunable_eq_nil (recs : List PrunableRecord) (c : Nat)
    (h : c + (recs.map PrunableRecord.tokens).sum ≤ TOOL_PROTECTION_THRESHOLD) :
    boundaryPrunable c recs = [] := by
  induction recs generalizing c with
  | nil => rfl
  | cons r rs ih =>
    simp only [List.map_cons, List.sum_cons] at h
    have h1 : ¬(c + r.tokens > TOOL_PROTECTION_THRESHOLD) := by omega
    simp only [boundaryPrunable, if_neg h1]
    exact ih _ (by omega)

/-- The prunable token total is always the token sum of the prunable list. -/
lemma prunable_total_eq (est : Part → Nat) (history : List Content) :
    (scanHistory est history).totalPrunableTokens
      = (((scanHistory est history).prunableParts).map PrunableRecord.tokens).sum := by
  rw [scanHistory_eq_scanRecs]
  have h := scanRecs_front (qualifyingRecords est history) 0
  rw [show initScanState = (⟨0, false, 0, []⟩ : ScanState) from rfl, h.1, h.2]

/-! ## Scanner soundness -/

lemma qualifies_spec {part : Part} {c : String} (h : qualifies part = some c) :
    part.functionResponse.isSome = true ∧ getObservationContent part = some c ∧
      c ≠ "" ∧ isAlreadyMasked c = false := by
  cases hfr : part.functionResponse with
  | none => simp [qualifies, hfr] at h
  | some fr =>
    cases hc : getObservationContent part with
    | none => simp [qualifies, hfr, hc] at h
    | some c2 =>
      by_cases h1 : c2 = ""
      · simp [qualifies, hfr, hc, h1] at h
      · by_cases h2 : isAlreadyMasked c2
        · simp [qualifies, hfr, hc, h1, h2] at h
        · have hc2 : c2 = c := by simpa [qualifies, hfr, hc, h1, h2] using h
          subst hc2
          exact ⟨by simp, rfl, h1, by simpa using h2⟩

lemma qualifies_eq_none_of_masked {part : Part} {c : String}
    (hc : getObservationContent part = some c) (hm : isAlreadyMasked c = true) :
    qualifies part = none := by
  unfold qualifies
  cases hfr : part.functionResponse with
  | none => rfl
  | some fr => rw [hc]; by_cases h1 : c = "" <;> simp [h1, hm]

/-- Every scan-order qualifying record points at a real part of the history
that satisfies the scan guards, with `tokens` its estimate. -/
lemma mem_qualifyingRecords {est : Part → Nat} {history : List Content} {r : PrunableRecord}
    (h : r ∈ qualifyingRecords est history) :
    ∃ part, historyPartAt history r.contentIndex r.partIndex = some part ∧
      qualifies part = some r.content ∧ r.tokens = est part := by
  unfold qualifyingRecords at h
  rw [List.mem_flatMap] at h
  obtain ⟨ic, hic, hr⟩ := h
  rw [List.mem_reverse, List.mem_enum_iff_getElem?] at hic
  unfold partRecords at hr
  rw [List.mem_filterMap] at hr
  obtain ⟨jp, hjp, heq⟩ := hr
  rw [List.mem_reverse, List.mem_enum_iff_getElem?] at hjp
  rw [Option.map_eq_some'] at heq
  obtain ⟨c, hq, hrec⟩ := heq
  refine ⟨jp.2, ?_, ?_, ?_⟩
  · unfold historyPartAt
    rw [← hrec]
    simp only []
    rw [hic]
    exact hjp
  · rw [← hrec]; exact hq
  · rw [← hrec]

/-- Every prunable record produced by the scan points at a real qualifying
part of the history. -/
lemma mem_prunable_sound {est : Part → Nat} {history : List Content} {r : PrunableRecord}
    (h : r ∈ (scanHistory est history).prunableParts) :
    ∃ part, historyPartAt history r.contentIndex r.partIndex = some part ∧
      qualifies part = some r.content ∧ r.tokens = est part := by
  apply mem_qualifyingRecords
  rw [scanHistory_eq_scanRecs] at h
  rw [show initScanState = (⟨0, false, 0, []⟩ : ScanState) from rfl,
    (scanRecs_front (qualifyingRecords est history) 0).1] at h
  exact (boundaryPrunable_suffix (qualifyingRecords est history) 0).sublist.subset h

/-! ## List index helpers -/

lemma list_getD_of_getElem? {α : Type} {l : List α} {i : Nat} {a : α} (d : α)
    (h : l[i]? = some a) : l.getD i d = a := by
  induction l generalizing i with
  | nil => simp at h
  | cons x xs ih =>
    cases i with
    | zero => simp at h; simp [h]
    | succ n => simp at h; simpa [List.getD] using ih h

lemma list_getD_oob {α : Type} {l : List α} {i : Nat} (d : α) (h : l.length ≤ i) :
    l.getD i d = d := by
  induction l generalizing i with
  | nil => simp [List.getD]
  | cons x xs ih =>
    cases i with
    | zero => simp at h
    | succ n => simpa [List.getD] using ih (by simpa using h)

lemma list_set_oob {α : Type} {l : List α} {i : Nat} (a : α) (h : l.length ≤ i) :
    l.set i a = l := by
  induction l generalizing i with
  | nil => rfl
  | cons x xs ih =>
    cases i with
    | zero => simp at h
    | succ n => simpa using ih (by simpa using h)

lemma list_getD_set_ne {α : Type} :
    ∀ (l : List α) (i j : Nat) (a d : α), i ≠ j → (l.set i a).getD j d = l.getD j d := by
  intro l
  induction l with
  | nil => intro i j a d h; rfl
  | cons x xs ih =>
    intro i j a d h
    cases i with
    | zero =>
      cases j with
      | zero => exact absurd rfl h
      | succ m => simp [List.getD]
    | succ n =>
      cases j with
      | zero => simp [List.getD]
      | succ m => simpa [List.getD] using ih n m a d (fun hnm => h (by omega))

lemma list_getD_set_self {α : Type} :
    ∀ (l : List α) (i : Nat) (a d : α), i < l.length → (l.set i a).getD i d = a := by
  intro l
  induction l with
  | nil => intro i a d h; simp at h
  | cons x xs ih =>
    intro i a d h
    cases i with
    | zero => rfl
    | succ n => simpa [List.getD] using ih n a d (by simpa using h)

lemma partAtD_of_historyPartAt {h : List Content} {ci pi : Nat} {part : Part}
    (hp : historyPartAt h ci pi = some part) : partAtD h ci pi = part := by
  unfold historyPartAt at hp
  cases hc : h[ci]? with
  | none => rw [hc] at hp; simp at hp
  | some c =>
    rw [hc] at hp
    unfold partAtD
    rw [list_getD_of_getElem? default hc]
    exact list_getD_of_getElem? default hp

/-! ## Masking loop lemmas -/

lemma partAtD_oob1 (H : List Content) (ci pi : Nat) (h : H.length ≤ ci) :
    partAtD H ci pi = default := by
  unfold partAtD
  rw [list_getD_oob default h]
  have he : ((default : Content).parts.getD []) = ([] : List Part) := rfl
  rw [he]
  exact list_getD_oob default (by simp)

lemma partAtD_oob2 (H : List Content) (ci pi : Nat)
    (h : ((H.getD ci default).parts.getD []).length ≤ pi) :
    partAtD H ci pi = default := by
  unfold partAtD
  exact list_getD_oob default h

/-- A part with a `functionResponse` can only be found in bounds. -/
lemma bounds_of_fr {H : List Content} {ci pi : Nat}
    (h : (partAtD H ci pi).functionResponse.isSome = true) :
    ci < H.length ∧ pi < ((H.getD ci default).parts.getD []).length := by
  constructor
  · by_contra hlt
    push_neg at hlt
    rw [partAtD_oob1 H ci pi hlt] at h
    simp [default] at h
  · by_contra hlt
    push_neg at hlt
    rw [partAtD_oob2 H ci pi hlt] at h
    simp [default] at h

/-- The loop body for a record whose (current) part has no
`functionResponse` is a no-op (`continue`, line 119). -/
lemma maskStep_skip (est : Part → Nat) (dir : String) (now rand : Nat → String) (k : Nat)
    (r : PrunableRecord) (st : LoopState)
    (h : (partAtD st.newHistory r.contentIndex r.partIndex).functionResponse = none) :
    maskStep est dir now rand k r st = st := by
  unfold partAtD at h
  simp only [maskStep, h]

/-- Explicit form of an executed loop body. -/
lemma maskStep_eq (est : Part → Nat) (dir : String) (now rand : Nat → String) (k : Nat)
    (r : PrunableRecord) (st : LoopState) (fr : FunctionResponse)
    (h : (partAtD st.newHistory r.contentIndex r.partIndex).functionResponse = some fr) :
    maskStep est dir now rand k r st =
      { newHistory := st.newHistory.set r.contentIndex
          { st.newHistory.getD r.contentIndex default with
            parts := some (((st.newHistory.getD r.contentIndex default).parts.getD []).set
              r.partIndex
              (rewritePart (partAtD st.newHistory r.contentIndex r.partIndex) fr
                (formatMaskedSnippet r.content (offloadFilePath dir (now k) (rand k) fr)
                  (fr.name.getD "unknown_tool") r.tokens))) }
        actualTokensSaved := st.actualTokensSaved + ((r.tokens : Int)
          - (est (rewritePart (partAtD st.newHistory r.contentIndex r.partIndex) fr
              (formatMaskedSnippet r.content (offloadFilePath dir (now k) (rand k) fr)
                (fr.name.getD "unknown_tool") r.tokens)) : Int))
        fileWrites := st.fileWrites
          ++ [(offloadFilePath dir (now k) (rand k) fr, r.content)] } := by
  unfold partAtD at h
  simp only [maskStep, h, partAtD]

/-- Rebuilding one part leaves every other position of the working history
untouched: masking one part of a turn never reverts another part of the same
turn, nor any other turn. -/
lemma maskStep_partAtD_frame (est : Part → Nat) (dir : String) (now rand : Nat → String)
    (k : Nat) (r : PrunableRecord) (st : LoopState) (ci pj : Nat)
    (h : ¬(ci = r.contentIndex ∧ pj = r.partIndex)) :
    partAtD (maskStep est dir now rand k r st).newHistory ci pj
      = partAtD st.newHistory ci pj := by
  cases hfr : (partAtD st.newHistory r.contentIndex r.partIndex).functionResponse with
  | none => rw [maskStep_skip est dir now rand k r st hfr]
  | some fr =>
    rw [maskStep_eq est dir now rand k r st fr hfr]
    by_cases hci : ci = r.contentIndex
    · subst hci
      have hpj : pj ≠ r.partIndex := fun hp => h ⟨rfl, hp⟩
      rcases Nat.lt_or_ge r.contentIndex st.newHistory.length with hlen | hlen
      · unfold partAtD
        rw [list_getD_set_self _ _ _ _ hlen]
        simp only [Option.getD_some]
        rw [list_getD_set_ne _ _ _ _ _ (fun hh => hpj hh.symm)]
      · rw [partAtD, list_set_oob _ hlen]
        rfl
    · unfold partAtD
      rw [list_getD_set_ne _ _ _ _ _ (fun hh => hci hh.symm)]

/-- An executed body replaces exactly its own position by the rewritten
part. -/
lemma maskStep_partAtD_self (est : Part → Nat) (dir : String) (now rand : Nat → String)
    (k : Nat) (r : PrunableRecord) (st : LoopState) (fr : FunctionResponse)
    (h : (partAtD st.newHistory r.contentIndex r.partIndex).functionResponse = some fr) :
    partAtD (maskStep est dir now rand k r st).newHistory r.contentIndex r.partIndex
      = rewritePart (partAtD st.newHistory r.contentIndex r.partIndex) fr
          (formatMaskedSnippet r.content (offloadFilePath dir (now k) (rand k) fr)
            (fr.name.getD "unknown_tool") r.tokens) := by
  obtain ⟨h1, h2⟩ := bounds_of_fr (H := st.newHistory) (by rw [h]; rfl)
  rw [maskStep_eq est dir now rand k r st fr h]
  unfold partAtD
  rw [list_getD_set_self _ _ _ _ h1]
  simp only [Option.getD_some]
  rw [list_getD_set_self _ _ _ _ h2]

/-- The scan guard, as a predicate on the working history. -/
def goodAt (H : List Content) (r : PrunableRecord) : Prop :=
  (partAtD H r.contentIndex r.partIndex).functionResponse.isSome = true

lemma stepExecutes_of_goodAt {st : LoopState} {r : PrunableRecord}
    (h : goodAt st.newHistory r) : stepExecutes st r = true := h

lemma maskStep_preserves_good (est : Part → Nat) (dir : String) (now rand : Nat → String)
    (k : Nat) (r2 r : PrunableRecord) (st : LoopState)
    (h : goodAt st.newHistory r) : goodAt (maskStep est dir now rand k r2 st).newHistory r := by
  by_cases hpos : r.contentIndex = r2.contentIndex ∧ r.partIndex = r2.partIndex
  · cases hfr : (partAtD st.newHistory r2.contentIndex r2.partIndex).functionResponse with
    | none => unfold goodAt; rw [maskStep_skip est dir now rand k r2 st hfr]; exact h
    | some fr =>
      unfold goodAt
      rw [hpos.1, hpos.2, maskStep_partAtD_self est dir now rand k r2 st fr hfr]
      simp [rewritePart]
  · unfold goodAt
    rw [maskStep_partAtD_frame est dir now rand k r2 st _ _ hpos]
    exact h

/-- With a non-failing writer, the loop succeeds and offloads exactly the
records' contents, in order, provided every record points at a
`functionResponse` part of the working history. -/
lemma maskLoopE_noerr {ε : Type} (est : Part → Nat) (dir : String) (now rand : Nat → String) :
    ∀ (recs : List PrunableRecord) (k : Nat) (st : LoopState),
      (∀ r ∈ recs, goodAt st.newHistory r) →
      ∃ fin, maskLoopE (ε := ε) est dir now rand (fun _ => none) recs k st = .ok fin ∧
        fin.fileWrites.map Prod.snd
          = st.fileWrites.map Prod.snd ++ recs.map PrunableRecord.content := by
  intro recs
  induction recs with
  | nil => intro k st h; exact ⟨st, rfl, by simp⟩
  | cons r rs ih =>
    intro k st h
    have hg : goodAt st.newHistory r := h r (by simp)
    obtain ⟨fr, hfr⟩ : ∃ fr,
        (partAtD st.newHistory r.contentIndex r.partIndex).functionResponse = some fr :=
      Option.isSome_iff_exists.mp hg
    have hrest : ∀ r2 ∈ rs, goodAt (maskStep est dir now rand k r st).newHistory r2 :=
      fun r2 hm => maskStep_preserves_good est dir now rand k r r2 st
        (h r2 (List.mem_cons_of_mem _ hm))
    obtain ⟨fin, hfin, hw⟩ := ih (k + 1) (maskStep est dir now rand k r st) hrest
    refine ⟨fin, ?_, ?_⟩
    · simp only [maskLoopE, stepExecutes_of_goodAt hg, if_true]
      exact hfin
    · rw [hw, maskStep_eq est dir now rand k r st fr hfr]
      simp

/-- If every record points at a `functionResponse` part of the working
history, the writer succeeds on the first `m` attempted writes and fails on
the `m`-th (0-based, `m` within the record list), then the loop aborts with
that error — after the earlier bodies ran and wrote their files. -/
lemma maskLoopE_propagates {ε : Type} (est : Part → Nat) (dir : String)
    (now rand : Nat → String) (writeErr : Nat → Option ε) (e : ε) :
    ∀ (recs : List PrunableRecord) (j : Nat) (st : LoopState) (m : Nat),
      (∀ r ∈ recs, goodAt st.newHistory r) →
      m < recs.length →
      (∀ i, i < m → writeErr (j + i) = none) →
      writeErr (j + m) = some e →
      maskLoopE est dir now rand writeErr recs j st = .error e := by
  intro recs
  induction recs with
  | nil => intro j st m _ hm _ _; simp at hm
  | cons r rs ih =>
    intro j st m hgood hm hnone hsome
    have hexec : stepExecutes st r = true := stepExecutes_of_goodAt (hgood r (by simp))
    cases m with
    | zero =>
      have hj : writeErr j = some e := by simpa using hsome
      simp [maskLoopE, hexec, hj]
    | succ m2 =>
      have hj : writeErr j = none := by simpa using hnone 0 (Nat.succ_pos m2)
      simp only [maskLoopE, hexec, if_true, hj]
      exact ih (j + 1) (maskStep est dir now rand j r st) m2
        (fun r2 hr2 => maskStep_preserves_good est dir now rand j r r2 st
          (hgood r2 (List.mem_cons_of_mem _ hr2)))
        (by simpa using hm)
        (fun i hi => by
          rw [show j + 1 + i = j + (i + 1) from by omega]
          exact hnone (i + 1) (by omega))
        (by
          rw [show j + 1 + m2 = j + (m2 + 1) from by omega]
          exact hsome)

/-- Positions not named by any remaining record are untouched by the rest of
the loop, whatever the writer does, as long as it reaches the end. -/
lemma maskLoopE_frame {ε : Type} (est : Part → Nat) (dir : String) (now rand : Nat → String)
    (we : Nat → Option ε) :
    ∀ (recs : List PrunableRecord) (k : Nat) (st fin : LoopState) (ci pj : Nat),
      maskLoopE est dir now rand we recs k st = .ok fin →
      (∀ r ∈ recs, ¬(r.contentIndex = ci ∧ r.partIndex = pj)) →
      partAtD fin.newHistory ci pj = partAtD st.newHistory ci pj := by
  intro recs
  induction recs with
  | nil =>
    intro k st fin ci pj h _
    have : st = fin := by simpa [maskLoopE] using h
    rw [← this]
  | cons r rs ih =>
    intro k st fin ci pj h hpos
    by_cases hexec : stepExecutes st r = true
    · simp only [maskLoopE, hexec, if_true] at h
      cases hwe : we k with
      | some e => rw [hwe] at h; simp at h
      | none =>
        rw [hwe] at h
        rw [ih (k + 1) _ fin ci pj h (fun r2 hm => hpos r2 (List.mem_cons_of_mem _ hm))]
        exact maskStep_partAtD_frame est dir now rand k r st ci pj
          (fun hc => hpos r (by simp) ⟨hc.1.symm, hc.2.symm⟩)
    · simp only [maskLoopE, hexec, if_false, Bool.false_eq_true] at h
      exact ih k st fin ci pj h (fun r2 hm => hpos r2 (List.mem_cons_of_mem _ hm))

/-! ## Snippet formatting lemmas -/

lemma fmt_small {content : String} (filePath toolName : String) (tk : Nat)
    (h : content.length ≤ 50000) :
    formatMaskedSnippet content filePath toolName tk = content := by
  simp only [formatMaskedSnippet]
  rw [if_pos (by simp only [SMART_TRUNCATION_TOKENS]; omega)]

lemma fmt_big {content : String} (filePath toolName : String) (tk : Nat)
    (h : 50000 < content.length) :
    formatMaskedSnippet content filePath toolName tk
      = "[Observation Masked]\n" ++ content.take 20000 ++ "\n"
        ++ truncationBanner (content.splitOn "\n").length (toFixed2MiB content.utf8ByteSize) tk
        ++ "\n" ++ content.drop (content.length - 20000) ++ "\n\n"
        ++ maskGuidance toolName filePath (content.splitOn "\n").length
            (toFixed2MiB content.utf8ByteSize) tk := by
  simp only [formatMaskedSnippet]
  rw [if_neg (by simp only [SMART_TRUNCATION_TOKENS]; omega)]
  rfl

lemma isAlreadyMasked_of_marker_head (s : String) :
    isAlreadyMasked ("[Observation Masked]\n" ++ s) = true := by
  unfold isAlreadyMasked
  rw [decide_eq_true_iff]
  refine ⟨[], '\n' :: s.data, ?_⟩
  rw [String.data_append]
  have hd : "[Observation Masked]\n".data = maskedMarker.data ++ ['\n'] := by decide
  rw [hd]
  simp

lemma fmt_big_masked {content : String} (filePath toolName : String) (tk : Nat)
    (h : 50000 < content.length) :
    isAlreadyMasked (formatMaskedSnippet content filePath toolName tk) = true := by
  rw [fmt_big filePath toolName tk h]
  rw [show "[Observation Masked]\n" ++ content.take 20000 ++ "\n"
        ++ truncationBanner (content.splitOn "\n").length (toFixed2MiB content.utf8ByteSize) tk
        ++ "\n" ++ content.drop (content.length - 20000) ++ "\n\n"
        ++ maskGuidance toolName filePath (content.splitOn "\n").length
            (toFixed2MiB content.utf8ByteSize) tk
      = "[Observation Masked]\n" ++ (content.take 20000 ++ "\n"
        ++ truncationBanner (content.splitOn "\n").length (toFixed2MiB content.utf8ByteSize) tk
        ++ "\n" ++ content.drop (content.length - 20000) ++ "\n\n"
        ++ maskGuidance toolName filePath (content.splitOn "\n").length
            (toFixed2MiB content.utf8ByteSize) tk) by simp [String.append_assoc]]
  exact isAlreadyMasked_of_marker_head _

/-! ## Payload rewrite lemmas -/

def recognizedKeys : List String := ["output", "result", "stdout", "content"]

/-- The key the rewrite step targets: the first recognized key *present* in
the payload (by `'k' in response`, regardless of its value's type). -/
def chosenKey (l : JsObj) : Option String :=
  if (jsGet l "output").isSome then some "output"
  else if (jsGet l "result").isSome then some "result"
  else if (jsGet l "stdout").isSome then some "stdout"
  else if (jsGet l "content").isSome then some "content"
  else none

lemma jsGet_setKey_self : ∀ (l : JsObj) (key : String) (v : JsVal),
    jsGet (setKey l key v) key = some v := by
  intro l
  induction l with
  | nil => intro key v; simp [setKey, jsGet]
  | cons kv rest ih =>
    obtain ⟨k1, w⟩ := kv
    intro key v
    by_cases h : k1 = key
    · simp [setKey, h, jsGet]
    · simp [setKey, h, jsGet, ih]

lemma jsGet_setKey_ne : ∀ (l : JsObj) (key k2 : String) (v : JsVal), k2 ≠ key →
    jsGet (setKey l key v) k2 = jsGet l k2 := by
  intro l
  induction l with
  | nil =>
    intro key k2 v h
    have hne : ¬(key = k2) := fun hh => h hh.symm
    simp [setKey, jsGet, hne]
  | cons kv rest ih =>
    obtain ⟨k1, w⟩ := kv
    intro key k2 v h
    by_cases h1 : k1 = key
    · subst h1
      have hne : ¬(k1 = k2) := fun hh => h hh.symm
      simp [setKey, jsGet, hne]
    · simp only [setKey, if_neg h1, jsGet]
      by_cases h2 : k1 = k2
      · simp [h2]
      · simp [h2, ih _ _ _ h]

lemma rewriteResponse_obj (l : JsObj) (snippet : String) :
    rewriteResponse (some (.obj l)) snippet
      = .obj (setKey l ((chosenKey l).getD "output") (.str snippet)) := by
  unfold rewriteResponse chosenKey
  by_cases h1 : (jsGet l "output").isSome <;> by_cases h2 : (jsGet l "result").isSome <;>
    by_cases h3 : (jsGet l "stdout").isSome <;> by_cases h4 : (jsGet l "content").isSome <;>
    simp [h1, h2, h3, h4]

/-- When every recognized key present in the payload holds a string, the key
the rewrite targets is exactly the key the scan extracted the text from. -/
lemma extraction_eq_chosen {part : Part} {fr : FunctionResponse} {l : JsObj} {c : String}
    (hfr : part.functionResponse = some fr) (hresp : fr.response = some (.obj l))
    (hget : getObservationContent part = some c)
    (hstr : ∀ k v, k ∈ recognizedKeys → jsGet l k = some v → ∃ s, v = JsVal.str s) :
    jsGet l ((chosenKey l).getD "output") = some (JsVal.str c) := by
  simp only [getObservationContent, hfr, hresp] at hget
  cases ho : jsGet l "output" with
  | some v =>
    obtain ⟨s, rfl⟩ := hstr "output" v (by simp [recognizedKeys]) ho
    rw [ho] at hget
    simp only [strVal] at hget
    obtain rfl : s = c := by simpa using hget
    simp [chosenKey, ho]
  | none =>
    rw [ho] at hget
    simp only [strVal] at hget
    cases hr : jsGet l "result" with
    | some v =>
      obtain ⟨s, rfl⟩ := hstr "result" v (by simp [recognizedKeys]) hr
      rw [hr] at hget
      simp only [strVal] at hget
      obtain rfl : s = c := by simpa using hget
      simp [chosenKey, ho, hr]
    | none =>
      rw [hr] at hget
      simp only [strVal] at hget
      cases hs : jsGet l "stdout" with
      | some v =>
        obtain ⟨s, rfl⟩ := hstr "stdout" v (by simp [recognizedKeys]) hs
        rw [hs] at hget
        simp only [strVal] at hget
        obtain rfl : s = c := by simpa using hget
        simp [chosenKey, ho, hr, hs]
      | none =>
        rw [hs] at hget
        simp only [strVal] at hget
        cases hc : jsGet l "content" with
        | some v =>
          obtain ⟨s, rfl⟩ := hstr "content" v (by simp [recognizedKeys]) hc
          rw [hc] at hget
          simp only [strVal] at hget
          obtain rfl : s = c := by simpa using hget
          simp [chosenKey, ho, hr, hs, hc]
        | none =>
          rw [hc] at hget
          simp [strVal] at hget

/-! ## Gate helper -/

/-- Below the hysteresis threshold `mask` is a pure no-op: original history,
zero counts, no directory creation, no writes, no telemetry — whatever the
I/O oracles would have done. -/
lemma gate_noop {ε : Type} (est : Part → Nat) (dir : String) (now rand : Nat → String)
    (mkdirErr : Option ε) (writeErr : Nat → Option ε) (history : List Content)
    (h : (scanHistory est history).totalPrunableTokens < HYSTERESIS_THRESHOLD) :
    maskCore est dir now rand mkdirErr writeErr history = .ok (⟨history, 0, 0⟩, noEffects) := by
  by_cases h0 : history.length = 0
  · simp [maskCore, h0]
  · simp [maskCore, h0, h]

lemma history_ne_nil_of_trigger {est : Part → Nat} {history : List Content}
    (h : HYSTERESIS_THRESHOLD ≤ (scanHistory est history).totalPrunableTokens) :
    ¬(history.length = 0) := by
  intro h0
  rw [List.length_eq_zero] at h0
  subst h0
  simp [scanHistory, initScanState, HYSTERESIS_THRESHOLD] at h

lemma goodAt_of_prunable {est : Part → Nat} {history : List Content} {r : PrunableRecord}
    (hr : r ∈ (scanHistory est history).prunableParts) : goodAt history r := by
  obtain ⟨part, hp, hq, _⟩ := mem_prunable_sound hr
  unfold goodAt
  rw [partAtD_of_historyPartAt hp]
  exact (qualifies_spec hq).1

/-! ## Claim theorems -/

/-- Claim C1: the backward scan of `mask` accumulates a running seen-token
counter over the non-masked, non-empty tool observations (turns last to
first, parts last to first); the first qualifying part whose addition makes
the counter strictly exceed 50,000 is itself added to the prunable list
(with its tokens in the prunable total), every older qualifying part after
that boundary is added unconditionally, and no part scanned before the
boundary is ever in the list: the prunable list is exactly the
`boundaryPrunable` region of the scan-order qualifying records (hence a
suffix of them), and the prunable total is its token sum. -/
theorem scan_prunable_boundary_spec (est : Part → Nat) (history : List Content) :
    (scanHistory est history).prunableParts
      = boundaryPrunable 0 (qualifyingRecords est history)
    ∧ (scanHistory est history).totalPrunableTokens
      = ((boundaryPrunable 0 (qualifyingRecords est history)).map PrunableRecord.tokens).sum
    ∧ (scanHistory est history).prunableParts <:+ qualifyingRecords est history := by
  have h := scanRecs_front (qualifyingRecords est history) 0
  rw [scanHistory_eq_scanRecs, show initScanState = (⟨0, false, 0, []⟩ : ScanState) from rfl]
  exact ⟨h.1, h.2, h.1 ▸ boundaryPrunable_suffix _ 0⟩

/-- Claim C2: when the prunable total is strictly below the 30,000-token
hysteresis threshold, `mask` returns the original history (the same value)
with `maskedCount 0` and `tokensSaved 0` and performs no side effect: no
directory creation, no file write, no telemetry event — even under failing
I/O oracles, which are never consulted. -/
theorem hysteresis_noop_below_threshold {ε : Type} (est : Part → Nat) (dir : String)
    (now rand : Nat → String) (mkdirErr : Option ε) (writeErr : Nat → Option ε)
    (history : List Content)
    (h : (scanHistory est history).totalPrunableTokens < HYSTERESIS_THRESHOLD) :
    maskCore est dir now rand mkdirErr writeErr history = .ok (⟨history, 0, 0⟩, noEffects) :=
  gate_noop est dir now rand mkdirErr writeErr history h

def w2Part : Part :=
  { functionResponse := some { name := some "t", response := some (.obj [("output", .str "small")]) } }

def w2History : List Content := [{ role := some "user", parts := some [w2Part] }]

theorem hysteresis_noop_below_threshold_witness :
    (scanHistory (fun _ => 100) w2History).totalPrunableTokens < HYSTERESIS_THRESHOLD
    ∧ maskCore (fun _ => 100) "d" (fun _ => "1") (fun _ => "r") (none : Option Nat)
        (fun _ => none) w2History = .ok (⟨w2History, 0, 0⟩, noEffects) :=
  ⟨by decide,
   hysteresis_noop_below_threshold (fun _ => 100) "d" (fun _ => "1") (fun _ => "r")
     (none : Option Nat) (fun _ => none) w2History (by decide)⟩

/-- Claim C3: the replacement snippet equals the original text unchanged
when the content length is at most 50,000 characters (2.5 × the
20,000-character limit); otherwise it is the masked marker, the first 20,000
characters verbatim, the single-line banner (line count, file size in MiB to
two decimals, estimated tokens), the last 20,000 characters verbatim, and
the guidance block naming the tool, offload file path, line count, file size
and estimated token count; in the latter case the snippet carries the masked
marker and differs from any unmasked original. -/
theorem formatMaskedSnippet_spec (content filePath toolName : String) (totalTokens : Nat) :
    (content.length ≤ 50000 →
      formatMaskedSnippet content filePath toolName totalTokens = content)
    ∧ (50000 < content.length →
        formatMaskedSnippet content filePath toolName totalTokens
          = "[Observation Masked]\n" ++ content.take 20000 ++ "\n"
            ++ truncationBanner (content.splitOn "\n").length
                (toFixed2MiB content.utf8ByteSize) totalTokens
            ++ "\n" ++ content.drop (content.length - 20000) ++ "\n\n"
            ++ maskGuidance toolName filePath (content.splitOn "\n").length
                (toFixed2MiB content.utf8ByteSize) totalTokens
        ∧ isAlreadyMasked (formatMaskedSnippet content filePath toolName totalTokens) = true
        ∧ (isAlreadyMasked content = false →
            formatMaskedSnippet content filePath toolName totalTokens ≠ content)) := by
  refine ⟨fun h => fmt_small filePath toolName totalTokens h,
    fun h => ⟨fmt_big filePath toolName totalTokens h,
      fmt_big_masked filePath toolName totalTokens h, fun hm heq => ?_⟩⟩
  have hx := fmt_big_masked filePath toolName totalTokens h
  rw [heq, hm] at hx
  exact absurd hx (by simp)

theorem formatMaskedSnippet_spec_witness :
    formatMaskedSnippet "abc" "/d/f.txt" "tool" 9 = "abc" :=
  (formatMaskedSnippet_spec "abc" "/d/f.txt" "tool" 9).1 (by decide)

/-- Claim C4: whenever masking triggers (prunable total ≥ 30,000), every
record of the prunable list is processed: `maskedCount` equals the length of
the prunable list and the offload writes contain each record's full original
text verbatim, in scan order — including records whose content is small
enough that the in-history replacement is textually identical. -/
theorem trigger_offloads_every_prunable (est : Part → Nat) (dir : String)
    (now rand : Nat → String) (history : List Content)
    (h : HYSTERESIS_THRESHOLD ≤ (scanHistory est history).totalPrunableTokens) :
    (mask est dir now rand history).toOption.map
        (fun p => (p.1.maskedCount, p.2.fileWrites.map Prod.snd))
      = some ((scanHistory est history).prunableParts.length,
              (scanHistory est history).prunableParts.map PrunableRecord.content) := by
  have h0 := history_ne_nil_of_trigger h
  obtain ⟨fin, hfin, hw⟩ := maskLoopE_noerr (ε := Unit) est (dir ++ "/" ++ OBSERVATION_DIR)
    now rand (scanHistory est history).prunableParts 0 ⟨history, 0, []⟩
    (fun r hr => goodAt_of_prunable hr)
  simp only [mask, maskCore, if_neg h0, if_neg (Nat.not_lt.mpr h), hfin]
  simp only [Except.toOption, Option.map_some']
  rw [show List.map Prod.snd fin.fileWrites
      = List.map PrunableRecord.content (scanHistory est history).prunableParts from by
    simpa using hw]

def wTrigPart : Part :=
  { functionResponse := some { name := some "tool1", response := some (.obj [("output", .str "bulk")]) } }

def wTrigHistory : List Content := [{ role := some "user", parts := some [wTrigPart] }]

theorem trigger_offloads_every_prunable_witness :
    HYSTERESIS_THRESHOLD ≤ (scanHistory (fun _ => 60000) wTrigHistory).totalPrunableTokens
    ∧ (mask (fun _ => 60000) "d" (fun _ => "1") (fun _ => "r") wTrigHistory).toOption.map
        (fun p => (p.1.maskedCount, p.2.fileWrites.map Prod.snd))
      = some ((scanHistory (fun _ => 60000) wTrigHistory).prunableParts.length,
              (scanHistory (fun _ => 60000) wTrigHistory).prunableParts.map
                PrunableRecord.content) :=
  ⟨by decide,
   trigger_offloads_every_prunable (fun _ => 60000) "d" (fun _ => "1") (fun _ => "r")
     wTrigHistory (by decide)⟩

def c5Est : Part → Nat := fun _ => 60000

def c5Part : Part :=
  { functionResponse := some { name := some "tool1", response := some (.obj [("output", .str "hi")]) } }

def c5History : List Content := [{ role := some "user", parts := some [c5Part] }]

/-- Claim C5 counterexample: with a deterministic estimator giving the single
observation 60,000 tokens, the first run triggers, masks the part at turn 0 /
part 0 (it is counted in `maskedCount` and its text "hi" is offloaded), and —
because the content is below the "too small to mask" bound — returns a
history identical to the input.  The scan of that returned history classifies
the very same part as prunable again, so a second run re-counts, re-prunes
and re-offloads a part the first run masked, contradicting the claim. -/
theorem small_record_remasked_cex :
    ((mask c5Est "d" (fun _ => "1") (fun _ => "r") c5History).toOption.map
        (fun p => (p.1.newHistory, p.1.maskedCount, p.2.fileWrites.map Prod.snd)))
      = some (c5History, 1, ["hi"])
    ∧ (scanHistory c5Est c5History).prunableParts.map
        (fun r => (r.contentIndex, r.partIndex)) = [(0, 0)] :=
  ⟨by decide, by decide⟩

/-- Claim C5 (amended): a second run classifies a part masked by the first
run as neither protected nor prunable exactly when its replacement carries
the masked marker, i.e. when its content exceeded 50,000 characters and was
truncated: (1) any part whose observation text is already masked is skipped
by the scan without touching the seen counter or the prunable list; (2) no
prunable record's content carries the marker; (3) the replacement of a
record with more than 50,000 characters of content always carries the
marker.  (Records masked through the "too small to mask" branch keep their
original text, carry no marker, and are re-scanned — see the
counterexample.) -/
theorem masked_marker_excluded_on_rescan :
    (∀ (est : Part → Nat) (i j : Nat) (part : Part) (st : ScanState) (c : String),
        getObservationContent part = some c → isAlreadyMasked c = true →
        scanPart est i j part st = st)
    ∧ (∀ (est : Part → Nat) (history : List Content) (r : PrunableRecord),
        r ∈ (scanHistory est history).prunableParts → isAlreadyMasked r.content = false)
    ∧ (∀ (content filePath toolName : String) (tk : Nat), 50000 < content.length →
        isAlreadyMasked (formatMaskedSnippet content filePath toolName tk) = true) := by
  refine ⟨?_, ?_, ?_⟩
  · intro est i j part st c hc hm
    simp [scanPart, qualifies_eq_none_of_masked hc hm]
  · intro est history r hr
    obtain ⟨part, _, hq, _⟩ := mem_prunable_sound hr
    exact (qualifies_spec hq).2.2.2
  · intro content filePath toolName tk h
    exact fmt_big_masked filePath toolName tk h

def wMaskedResp : FunctionResponse :=
  { name := some "t"
    response := some (.obj [("output", .str "x [Observation Masked] y")]) }

def wMaskedPart : Part := { functionResponse := some wMaskedResp }

theorem masked_marker_excluded_on_rescan_witness :
    scanPart (fun _ => 7) 0 0 wMaskedPart initScanState = initScanState :=
  masked_marker_excluded_on_rescan.1 (fun _ => 7) 0 0 wMaskedPart initScanState
    "x [Observation Masked] y" (by decide) (by decide)

def c6Est : Part → Nat := fun _ => 60000

def c6Resp : FunctionResponse :=
  { name := some "t"
    response := some (.obj [("output", JsVal.other "42"), ("result", JsVal.str "hello")]) }

def c6Part : Part := { functionResponse := some c6Resp }

def c6History : List Content := [{ role := some "user", parts := some [c6Part] }]

/-- Claim C6 counterexample: the observation text "hello" is extracted from
the `result` key (the `output` value is not a string), yet masking rewrites
the `output` key — chosen by key *presence*, not by which key held the text.
The run changes `output` from the non-string value to the snippet string,
violating "every other key of the response payload is preserved unchanged"
(the `result` key keeps its value only because the snippet happens to equal
it). -/
theorem rewrite_key_presence_cex :
    getObservationContent c6Part = some "hello"
    ∧ (partAtD c6History 0 0).functionResponse.map (fun fr => fr.response)
      = some (some (RespVal.obj [("output", JsVal.other "42"), ("result", JsVal.str "hello")]))
    ∧ ((mask c6Est "d" (fun _ => "1") (fun _ => "r") c6History).toOption.map
        (fun p => (partAtD p.1.newHistory 0 0).functionResponse.map (fun fr => fr.response)))
      = some (some (some (RespVal.obj
          [("output", JsVal.str "hello"), ("result", JsVal.str "hello")]))) :=
  ⟨by decide, by decide, by decide⟩

/-- Claim C6 (amended): for every prunable record the masking step replaces
the highest-priority recognized key *present* in the payload (priority
`output` > `result` > `stdout` > `content`, tested by key presence
regardless of the value's type; the whole payload is replaced when it was a
bare non-empty string, and an `output` key is set when the payload was
absent, an empty string, or had no recognized key), while every other
payload key and every field of the part outside the response payload is
preserved unchanged; the replaced key is the key that held the extracted
text whenever every recognized key present holds a string value. -/
theorem rewrite_replaces_first_present_key :
    (∀ (part : Part) (fr : FunctionResponse) (snippet : String),
        (rewritePart part fr snippet).text = part.text
        ∧ (rewritePart part fr snippet).functionResponse
          = some { fr with response := some (rewriteResponse fr.response snippet) })
    ∧ (∀ (s snippet : String), s ≠ "" → rewriteResponse (some (.str s)) snippet = .str snippet)
    ∧ (∀ (l : JsObj) (snippet : String),
        rewriteResponse (some (.obj l)) snippet
          = .obj (setKey l ((chosenKey l).getD "output") (.str snippet))
        ∧ jsGet (setKey l ((chosenKey l).getD "output") (.str snippet))
            ((chosenKey l).getD "output") = some (.str snippet)
        ∧ ∀ k2, k2 ≠ (chosenKey l).getD "output" →
            jsGet (setKey l ((chosenKey l).getD "output") (.str snippet)) k2 = jsGet l k2)
    ∧ (∀ (part : Part) (fr : FunctionResponse) (l : JsObj) (c : String),
        part.functionResponse = some fr → fr.response = some (.obj l) →
        getObservationContent part = some c →
        (∀ k v, k ∈ recognizedKeys → jsGet l k = some v → ∃ s, v = JsVal.str s) →
        jsGet l ((chosenKey l).getD "output") = some (JsVal.str c)) := by
  refine ⟨?_, ?_, ?_, ?_⟩
  · intro part fr snippet
    exact ⟨rfl, rfl⟩
  · intro s snippet hs
    simp [rewriteResponse, hs]
  · intro l snippet
    exact ⟨rewriteResponse_obj l snippet, jsGet_setKey_self _ _ _,
      fun k2 h => jsGet_setKey_ne _ _ _ _ h⟩
  · intro part fr l c hfr hresp hget hstr
    exact extraction_eq_chosen hfr hresp hget hstr

theorem rewrite_replaces_first_present_key_witness :
    jsGet (setKey [("output", JsVal.other "42"), ("result", JsVal.str "hi")]
        ((chosenKey [("output", JsVal.other "42"), ("result", JsVal.str "hi")]).getD "output")
        (.str "SNIP")) "result"
      = jsGet [("output", JsVal.other "42"), ("result", JsVal.str "hi")] "result" :=
  (rewrite_replaces_first_present_key.2.2.1
    [("output", JsVal.other "42"), ("result", JsVal.str "hi")] "SNIP").2.2 "result" (by decide)

/-- Claim C7: if directory creation fails, or any offload file write fails —
the `m`-th attempted write, for any `m` within the prunable list, after the
earlier `m` writes succeeded — `mask` propagates that error to the caller:
the invocation returns the error and no (partially masked) history at all,
however many parts the aborted loop had already rebuilt in its working copy.
In the model the caller's history value is untouched, matching the code's
copy-on-write discipline. -/
theorem io_failure_propagates {ε : Type} (est : Part → Nat) (dir : String)
    (now rand : Nat → String) (history : List Content) (e : ε) (writeErr : Nat → Option ε)
    (m : Nat)
    (h : HYSTERESIS_THRESHOLD ≤ (scanHistory est history).totalPrunableTokens) :
    maskCore est dir now rand (some e) writeErr history = .error e
    ∧ (m < (scanHistory est history).prunableParts.length →
        (∀ i, i < m → writeErr i = none) →
        writeErr m = some e →
        maskCore est dir now rand none writeErr history = .error e) := by
  have h0 := history_ne_nil_of_trigger h
  have h0' : ¬history = [] := fun hh => h0 (by simp [hh])
  constructor
  · simp [maskCore, h0', Nat.not_lt.mpr h]
  · intro hm hnone hsome
    have hloop : maskLoopE est (dir ++ "/" ++ OBSERVATION_DIR) now rand writeErr
        (scanHistory est history).prunableParts 0 ⟨history, 0, []⟩ = .error e :=
      maskLoopE_propagates est (dir ++ "/" ++ OBSERVATION_DIR) now rand writeErr e
        (scanHistory est history).prunableParts 0 ⟨history, 0, []⟩ m
        (fun r hr => goodAt_of_prunable hr) hm
        (fun i hi => by simpa using hnone i hi)
        (by simpa using hsome)
    simp only [maskCore, if_neg h0, if_neg (Nat.not_lt.mpr h), hloop]

def w7PartA : Part :=
  { functionResponse := some { name := some "a", response := some (.obj [("output", .str "AA")]) } }

def w7PartB : Part :=
  { functionResponse := some { name := some "b", response := some (.obj [("output", .str "BB")]) } }

def w7History : List Content :=
  [{ role := some "user", parts := some [w7PartA] },
   { role := some "user", parts := some [w7PartB] }]

/-- The second attempted write fails after the first one succeeded. -/
def w7WriteErr : Nat → Option Nat := fun i => if i = 1 then some 5 else none

theorem io_failure_propagates_witness :
    HYSTERESIS_THRESHOLD ≤ (scanHistory (fun _ => 60000) w7History).totalPrunableTokens
    ∧ 1 < (scanHistory (fun _ => 60000) w7History).prunableParts.length
    ∧ w7WriteErr 0 = none ∧ w7WriteErr 1 = some 5
    ∧ maskCore (fun _ => 60000) "d" (fun _ => "1") (fun _ => "r") (some 5)
        w7WriteErr w7History = .error 5
    ∧ maskCore (fun _ => 60000) "d" (fun _ => "1") (fun _ => "r") none
        w7WriteErr w7History = .error 5 :=
  ⟨by decide, by decide, rfl, rfl,
   (io_failure_propagates (fun _ => 60000) "d" (fun _ => "1") (fun _ => "r")
     w7History 5 w7WriteErr 1 (by decide)).1,
   (io_failure_propagates (fun _ => 60000) "d" (fun _ => "1") (fun _ => "r")
     w7History 5 w7WriteErr 1 (by decide)).2 (by decide)
     (fun i hi => by
       have hz : i = 0 := by omega
       rw [hz]
       rfl)
     rfl⟩

/-- Claim C8: when the total observation token count over the non-masked,
non-empty tool observations is at most 50,000, masking never triggers:
`mask` returns `maskedCount 0`, `tokensSaved 0` and the unchanged history
with no side effects; and on the empty history it returns the same no-op
immediately, independently of the estimator (which is never invoked). -/
theorem below_protection_never_triggers (est est2 : Part → Nat) (dir : String)
    (now rand : Nat → String) (history : List Content) :
    (((qualifyingRecords est history).map PrunableRecord.tokens).sum
        ≤ TOOL_PROTECTION_THRESHOLD →
      mask est dir now rand history = .ok (⟨history, 0, 0⟩, noEffects))
    ∧ mask est dir now rand [] = .ok (⟨[], 0, 0⟩, noEffects)
    ∧ mask est dir now rand [] = mask est2 dir now rand [] := by
  refine ⟨fun hsum => ?_, rfl, rfl⟩
  unfold mask
  apply gate_noop
  have hc := (scanRecs_front (qualifyingRecords est history) 0).2
  rw [scanHistory_eq_scanRecs, show initScanState = (⟨0, false, 0, []⟩ : ScanState) from rfl,
    hc, boundaryPrunable_eq_nil _ 0 (by simpa using hsum)]
  simp [HYSTERESIS_THRESHOLD]

theorem below_protection_never_triggers_witness :
    ((qualifyingRecords (fun _ => 100) w2History).map PrunableRecord.tokens).sum
      ≤ TOOL_PROTECTION_THRESHOLD
    ∧ mask (fun _ => 100) "d" (fun _ => "1") (fun _ => "r") w2History
      = .ok (⟨w2History, 0, 0⟩, noEffects) :=
  ⟨by decide,
   (below_protection_never_triggers (fun _ => 100) (fun _ => 0) "d" (fun _ => "1")
     (fun _ => "r") w2History).1 (by decide)⟩

/-- Claim C9 (implicit): the "already masked" test is substring containment
of "[Observation Masked]": `isAlreadyMasked c` holds iff the marker's
characters occur contiguously anywhere in `c`; and any tool observation
whose text contains the marker — for whatever reason, including a tool
output that merely happens to include that string — is excluded from the
scan: the scan step leaves the state untouched, so the part is neither
counted toward the protection budget nor added to the prunable list. -/
theorem already_masked_is_substring_exclusion :
    (∀ c : String, isAlreadyMasked c = true ↔ maskedMarker.data <:+: c.data)
    ∧ (∀ (est : Part → Nat) (i j : Nat) (part : Part) (st : ScanState) (c : String),
        getObservationContent part = some c → maskedMarker.data <:+: c.data →
        scanPart est i j part st = st) := by
  constructor
  · intro c
    simp [isAlreadyMasked]
  · intro est i j part st c hc hinf
    have hm : isAlreadyMasked c = true := by simp [isAlreadyMasked, hinf]
    simp [scanPart, qualifies_eq_none_of_masked hc hm]

def w9Resp : FunctionResponse :=
  { name := some "grep"
    response := some (.obj [("stdout", .str "log: [Observation Masked] found in file")]) }

def w9Part : Part := { functionResponse := some w9Resp }

theorem already_masked_is_substring_exclusion_witness :
    scanPart (fun _ => 9) 1 2 w9Part initScanState = initScanState :=
  already_masked_is_substring_exclusion.2 (fun _ => 9) 1 2 w9Part initScanState
    "log: [Observation Masked] found in file" (by decide) (by decide)

/-- Claim C10 (implicit): each masking mutation reads the turn from the
working copy already updated by earlier mutations and rebuilds only the
affected part: (1) an executed body changes no position other than its own —
in particular masking one part of a turn never reverts a previously masked
part of that same turn; (2) its own position becomes exactly the rewritten
part; (3) positions not named by the remaining records are untouched by the
rest of the loop, so earlier maskings survive in the returned history. -/
theorem masking_preserves_other_parts :
    (∀ (est : Part → Nat) (dir : String) (now rand : Nat → String) (k : Nat)
        (r : PrunableRecord) (st : LoopState) (ci pj : Nat),
        ¬(ci = r.contentIndex ∧ pj = r.partIndex) →
        partAtD (maskStep est dir now rand k r st).newHistory ci pj
          = partAtD st.newHistory ci pj)
    ∧ (∀ (est : Part → Nat) (dir : String) (now rand : Nat → String) (k : Nat)
        (r : PrunableRecord) (st : LoopState) (fr : FunctionResponse),
        (partAtD st.newHistory r.contentIndex r.partIndex).functionResponse = some fr →
        partAtD (maskStep est dir now rand k r st).newHistory r.contentIndex r.partIndex
          = rewritePart (partAtD st.newHistory r.contentIndex r.partIndex) fr
              (formatMaskedSnippet r.content (offloadFilePath dir (now k) (rand k) fr)
                (fr.name.getD "unknown_tool") r.tokens))
    ∧ (∀ (ε : Type) (est : Part → Nat) (dir : String) (now rand : Nat → String)
        (we : Nat → Option ε) (recs : List PrunableRecord) (k : Nat) (st fin : LoopState)
        (ci pj : Nat),
        maskLoopE est dir now rand we recs k st = .ok fin →
        (∀ r ∈ recs, ¬(r.contentIndex = ci ∧ r.partIndex = pj)) →
        partAtD fin.newHistory ci pj = partAtD st.newHistory ci pj) :=
  ⟨fun est dir now rand k r st ci pj h => maskStep_partAtD_frame est dir now rand k r st ci pj h,
   fun est dir now rand k r st fr h => maskStep_partAtD_self est dir now rand k r st fr h,
   fun _ est dir now rand we recs k st fin ci pj h1 h2 =>
     maskLoopE_frame est dir now rand we recs k st fin ci pj h1 h2⟩

def w10PartA : Part :=
  { functionResponse := some { name := some "a", response := some (.obj [("output", .str "AAAA")]) } }

def w10PartB : Part :=
  { functionResponse := some { name := some "b", response := some (.obj [("stdout", .str "BBBB")]) } }

def w10St : LoopState :=
  { newHistory := [{ role := some "user", parts := some [w10PartA, w10PartB] }]
    actualTokensSaved := 0
    fileWrites := [] }

theorem masking_preserves_other_parts_witness :
    partAtD (maskStep (fun _ => 60000) "d" (fun _ => "1") (fun _ => "r") 0
        ⟨0, 1, 60000, "BBBB"⟩ w10St).newHistory 0 0
      = partAtD w10St.newHistory 0 0 :=
  masking_preserves_other_parts.1 (fun _ => 60000) "d" (fun _ => "1") (fun _ => "r") 0
    ⟨0, 1, 60000, "BBBB"⟩ w10St 0 0 (by decide)

end ObsMask
